import Mathlib

/-
Shallow embedding of the recon-ai reconciliation pipeline
(`src/crew/agents/*.py`) and verification of the spec's claims about it.

Conventions of the embedding:
* Python / pandas scalars are modelled by `Value`; pandas represents a
  missing numeric cell as NaN (a float), which is distinct from Python's
  `None`, so both appear as separate constructors.
* Numeric values are modelled by `ℚ` (the claims never involve genuine
  floating-point rounding).
* pandas comparisons with NaN yield `False`, and arithmetic with NaN
  yields NaN; this is reflected in the `Option ℚ` operations below.
-/

namespace ReconAI

/-- A Python/pandas scalar as it appears in a trade row: Python `None`,
pandas/NumPy `NaN` (missing numeric cell), a number, a string, or a bool. -/
inductive Value where
  | none : Value
  | nan : Value
  | num : ℚ → Value
  | str : String → Value
  | bool : Bool → Value
deriving DecidableEq, Repr

/-- Python `x is None` for a `Value`: only `None` itself is `None`;
in particular a pandas `NaN` is NOT `None`. -/
def Value.isNone : Value → Bool
  | .none => true
  | _ => false

/-- Python `==` on the scalar universe: `None == None`, numbers by value,
`True`/`False` compare equal to `1`/`0`, strings by content, and
`NaN == x` is always `False` (IEEE semantics, as in pandas). -/
def pyEq : Value → Value → Bool
  | .none, .none => true
  | .num a, .num b => decide (a = b)
  | .num a, .bool b => decide (a = (if b then (1 : ℚ) else 0))
  | .bool a, .num b => decide ((if a then (1 : ℚ) else 0) = b)
  | .bool a, .bool b => a == b
  | .str a, .str b => a == b
  | _, _ => false

/-- A trade row as the analyzer sees it: a pandas `Series`, i.e. an ordered
association of column names to scalar values. -/
abbrev Row := List (String × Value)

/-- `row.get(key)`: pandas `Series.get` returns the stored value, or Python
`None` when the key is absent. -/
def Row.get (row : Row) (key : String) : Value :=
  match List.lookup key row with
  | some v => v
  | Option.none => Value.none

/-- Helper for Python's substring test: `needle` occurs at the front of
`hay` (on character lists). -/
def charsHaveFront : List Char → List Char → Bool
  | [], _ => true
  | _ :: _, [] => false
  | a :: as, b :: bs => a == b && charsHaveFront as bs

/-- Helper for Python's substring test: `needle` occurs somewhere in `hay`
(on character lists). -/
def charsHaveSub (needle : List Char) : List Char → Bool
  | [] => needle.isEmpty
  | b :: bs => charsHaveFront needle (b :: bs) || charsHaveSub needle bs

/-- Python's `needle in hay` substring test on strings. -/
def strContainsSub (hay needle : String) : Bool :=
  charsHaveSub needle.data hay.data

/-- Embedding of `PVAnalysisAgent._evaluate_condition`.  The dispatcher
recognises a closed set of condition strings; any other string falls through
to `_safe_eval_condition` (arbitrary Python `eval`, abstracted here as the
`safeEval` parameter).  A non-string condition raises a `TypeError` inside
the `try` block at the first substring test and is therefore reported as
`False` by the `except` handler. -/
def evalPVCond (safeEval : Row → String → Bool) (row : Row) : Value → Bool
  | Value.str c =>
    if c = "PV_old is None" then (Row.get row "PV_old").isNone
    else if c = "PV_new is None" then (Row.get row "PV_new").isNone
    else if c = "PV_Mismatch == False" then pyEq (Row.get row "PV_Mismatch") (.bool false)
    else if c = "PV_Mismatch == True" then pyEq (Row.get row "PV_Mismatch") (.bool true)
    else if strContainsSub c "FundingCurve == 'USD-LIBOR' and ModelVersion != 'v2024.3'" then
      pyEq (Row.get row "FundingCurve") (.str "USD-LIBOR") &&
        !(pyEq (Row.get row "ModelVersion") (.str "v2024.3"))
    else if strContainsSub c "CSA_Type == 'Cleared' and PV_Mismatch == True" then
      pyEq (Row.get row "CSA_Type") (.str "Cleared") &&
        pyEq (Row.get row "PV_Mismatch") (.bool true)
    else if strContainsSub c "CSA_Type == 'Cleared_CSA' and PV_Mismatch" then
      pyEq (Row.get row "CSA_Type") (.str "Cleared_CSA") &&
        pyEq (Row.get row "PV_Mismatch") (.bool true)
    else safeEval row c
  | _ => false

/-- Embedding of `DeltaAnalysisAgent._evaluate_condition`, analogous to
`evalPVCond`. -/
def evalDeltaCond (safeEval : Row → String → Bool) (row : Row) : Value → Bool
  | Value.str c =>
    if c = "Delta_Mismatch == False" then pyEq (Row.get row "Delta_Mismatch") (.bool false)
    else if c = "Delta_Mismatch == True" then pyEq (Row.get row "Delta_Mismatch") (.bool true)
    else if strContainsSub c "ProductType == 'Option' and Delta_Mismatch == True" then
      pyEq (Row.get row "ProductType") (.str "Option") &&
        pyEq (Row.get row "Delta_Mismatch") (.bool true)
    else safeEval row c
  | _ => false

/-- A business rule dict `{condition, label, priority, category}`.
`condition` and `label` are arbitrary Python values (`add_business_rule`
never validates them); `priority` is read with `rule.get('priority', 0)`,
so a rule dict without a priority is modelled as priority `0`. -/
structure Rule where
  condition : Value
  label : Value
  priority : Int
  category : Value
deriving DecidableEq, Repr

/-- One step of the stable descending sort: insert `r` (an element that
originally occurs before every element of the list) in front of the first
element whose priority is `≤ r.priority`. -/
def insertDesc (r : Rule) : List Rule → List Rule
  | [] => [r]
  | x :: xs => if x.priority ≤ r.priority then r :: x :: xs else x :: insertDesc r xs

/-- Embedding of Python's
`sorted(rules, key=lambda x: x.get('priority', 0), reverse=True)`:
a stable sort by descending priority (CPython's sort is stable, and with
`reverse=True` elements with equal keys keep their original order).  Any
stable sort has the same output; this one is an insertion sort. -/
def pySortedByPriorityDesc : List Rule → List Rule
  | [] => []
  | r :: rs => insertDesc r (pySortedByPriorityDesc rs)

/-- The shared loop body of `PVAnalysisAgent.analyze` and
`DeltaAnalysisAgent.analyze`: walk the (already sorted) rule list, return
the label of the first rule whose condition evaluates to true, and fall
back to the hardcoded string `"Within tolerance"`. -/
def runRules (evalCond : Row → Value → Bool) (row : Row) : List Rule → Value
  | [] => .str "Within tolerance"
  | r :: rs => if evalCond row r.condition then r.label else runRules evalCond row rs

/-- Embedding of `PVAnalysisAgent.analyze`. -/
def analyzePV (safeEval : Row → String → Bool) (rules : List Rule) (row : Row) : Value :=
  runRules (evalPVCond safeEval) row (pySortedByPriorityDesc rules)

/-- Embedding of `DeltaAnalysisAgent.analyze`. -/
def analyzeDelta (safeEval : Row → String → Bool) (rules : List Rule) (row : Row) : Value :=
  runRules (evalDeltaCond safeEval) row (pySortedByPriorityDesc rules)

/-- The first rule (in evaluation order) whose condition holds for the row;
used to state what `analyze` returns. -/
def firstMatch (evalCond : Row → Value → Bool) (rules : List Rule) (row : Row) : Option Rule :=
  List.find? (fun r => evalCond row r.condition) (pySortedByPriorityDesc rules)

/-- The default `pv_rules` of `DynamicLabelGenerator._load_business_rules`,
in insertion order. -/
def defaultPvRules : List Rule :=
  [ { condition := .str "PV_old is None",
      label := .str "New trade – no prior valuation",
      priority := 1, category := .str "trade_lifecycle" },
    { condition := .str "PV_new is None",
      label := .str "Trade dropped from new model",
      priority := 1, category := .str "trade_lifecycle" },
    { condition := .str "FundingCurve == 'USD-LIBOR' and ModelVersion != 'v2024.3'",
      label := .str "Legacy LIBOR curve with outdated model – PV likely shifted",
      priority := 2, category := .str "curve_model" },
    { condition := .str "CSA_Type == 'Cleared' and PV_Mismatch == True",
      label := .str "CSA changed post-clearing – funding basis moved",
      priority := 2, category := .str "funding_csa" },
    { condition := .str "PV_Mismatch == False",
      label := .str "Within tolerance",
      priority := 0, category := .str "tolerance" } ]

/-- The default `delta_rules` of `DynamicLabelGenerator._load_business_rules`,
in insertion order. -/
def defaultDeltaRules : List Rule :=
  [ { condition := .str "ProductType == 'Option' and Delta_Mismatch == True",
      label := .str "Vol sensitivity likely – delta impact due to model curve shift",
      priority := 2, category := .str "volatility" },
    { condition := .str "Delta_Mismatch == False",
      label := .str "Within tolerance",
      priority := 0, category := .str "tolerance" } ]

/-- Input of `ReconAgent.add_diff_flags` for one row: the four pricing
columns, each possibly missing (pandas NaN, modelled as `Option.none`). -/
structure TradeVals where
  pv_old : Option ℚ
  pv_new : Option ℚ
  delta_old : Option ℚ
  delta_new : Option ℚ
deriving DecidableEq, Repr

/-- pandas column subtraction: NaN propagates, it is never coerced to 0. -/
def subO : Option ℚ → Option ℚ → Option ℚ
  | some a, some b => some (a - b)
  | _, _ => Option.none

/-- pandas `Series.abs()`: NaN stays NaN. -/
def absO : Option ℚ → Option ℚ
  | some a => some |a|
  | Option.none => Option.none

/-- pandas `series > t`: an IEEE comparison, so `NaN > t` is `False`. -/
def gtO : Option ℚ → ℚ → Bool
  | some a, t => decide (t < a)
  | Option.none, _ => false

/-- The columns `ReconAgent.add_diff_flags` computes for one row. -/
structure ReconFlags where
  pv_diff : Option ℚ
  delta_diff : Option ℚ
  pv_mismatch : Bool
  delta_mismatch : Bool
  any_mismatch : Bool
deriving DecidableEq, Repr

/-- Embedding of `ReconAgent.add_diff_flags`, row-wise.  The mismatch columns
are the results of a pandas `>` comparison and hence plain booleans, so the
defensive `fillna(False)` before the `|` in the source is the identity. -/
def addDiffFlags (pvTolerance deltaTolerance : ℚ) (t : TradeVals) : ReconFlags :=
  let pd := subO t.pv_new t.pv_old
  let dd := subO t.delta_new t.delta_old
  let pm := gtO (absO pd) pvTolerance
  let dm := gtO (absO dd) deltaTolerance
  { pv_diff := pd, delta_diff := dd, pv_mismatch := pm, delta_mismatch := dm,
    any_mismatch := pm || dm }

/-- The trade identifiers (key column) of a keyed table. -/
def keys {α : Type _} (t : List (String × α)) : List String :=
  t.map Prod.fst

/-- The rows of table `t` whose key equals `k` (in table order). -/
def matchesFor {α : Type _} (k : String) (t : List (String × α)) : List (String × α) :=
  t.filter (fun x => x.1 == k)

/-- The rows an outer merge produces for one old row: that row paired with
each new row of the same key, or with an all-NaN right side if there is
none. -/
def outerChunk {α β : Type _} (a : String × α) (new : List (String × β)) :
    List (String × (Option α × Option β)) :=
  match matchesFor a.1 new with
  | [] => [(a.1, (some a.2, Option.none))]
  | ms => ms.map (fun b => (a.1, (some a.2, some b.2)))

/-- The left block of a pandas outer merge: every old row, paired with each
new row of the same key (or with an all-NaN right side if there is none). -/
def outerMatched {α β : Type _} (old : List (String × α)) (new : List (String × β)) :
    List (String × (Option α × Option β)) :=
  old.flatMap (fun a => outerChunk a new)

/-- The right block of a pandas outer merge: the new rows whose key never
occurs in the old table, with an all-NaN left side. -/
def outerRightOnly {α β : Type _} (old : List (String × α)) (new : List (String × β)) :
    List (String × (Option α × Option β)) :=
  (new.filter (fun b => !(old.any (fun a => a.1 == b.1)))).map
    (fun b => (b.1, (Option.none, some b.2)))

/-- Embedding of pandas `old.merge(new, on="TradeID", how="outer",
suffixes=('_old', '_new'))` on tables keyed by `TradeID` (the claims proved
below are insensitive to the result's row order). -/
def outerJoin {α β : Type _} (old : List (String × α)) (new : List (String × β)) :
    List (String × (Option α × Option β)) :=
  outerMatched old new ++ outerRightOnly old new

/-- The rows a left merge produces for one left row: that row paired with
each matching right row, or with an all-NaN right side if there is none. -/
def leftChunk {α β : Type _} (a : String × α) (m : List (String × β)) :
    List (String × (α × Option β)) :=
  match matchesFor a.1 m with
  | [] => [(a.1, (a.2, Option.none))]
  | ms => ms.map (fun b => (a.1, (a.2, some b.2)))

/-- Embedding of pandas `l.merge(m, on="TradeID", how="left")`: every left
row is kept (paired with each matching right row, or with an all-NaN right
side); right rows whose key is absent from the left table are dropped. -/
def leftJoin {α β : Type _} (l : List (String × α)) (m : List (String × β)) :
    List (String × (α × Option β)) :=
  l.flatMap (fun a => leftChunk a m)

/-- Embedding of `UnifiedDataLoaderAgent._merge_dataframes` (and of
`DataLoaderAgent.load_all_data`'s merge chain) with all four tables
present: outer-join old and new pricing, then left-join metadata, then
left-join the funding reference. -/
def mergeDataframes {α β γ δ : Type _} (old : List (String × α)) (new : List (String × β))
    (meta : List (String × γ)) (funding : List (String × δ)) :
    List (String × (((Option α × Option β) × Option γ) × Option δ)) :=
  leftJoin (leftJoin (outerJoin old new) meta) funding

/-- Embedding of `UnifiedDataLoaderAgent._merge_hybrid_data`: keep the API
table, then append the file rows whose `TradeID` does not occur in the API
table (`pd.concat` after the `isin` filter). -/
def mergeHybridData {α : Type _} (api file : List (String × α)) : List (String × α) :=
  api ++ file.filter (fun b => !(api.any (fun a => a.1 == b.1)))

/-- A JSON value as returned by `response.json()` (plus the non-standard
`NaN` literal that Python's `json` module emits for float NaN). -/
inductive Json where
  | null : Json
  | nan : Json
  | num : ℚ → Json
  | str : String → Json
  | bool : Bool → Json
  | arr : List Json → Json
  | obj : List (String × Json) → Json

/-- A row object inside an API response. -/
abbrev JRow := List (String × Json)

/-- All-or-nothing traversal of a list with a partial function (the
`Option` monad's `mapM`, written out for direct computation). -/
def optMapM {α β : Type _} (g : α → Option β) : List α → Option (List β)
  | [] => some []
  | a :: as =>
    match g a with
    | some b => (optMapM g as).map (fun bs => b :: bs)
    | Option.none => Option.none

/-- `pd.DataFrame` applied to one element of a JSON array: only objects are
row records. -/
def rowOf : Json → Option JRow
  | .obj fs => some fs
  | _ => Option.none

/-- `pd.DataFrame` applied to a JSON payload, modelled for the shapes the
API contract deals in: an array of row objects becomes a table; any other
payload is not modelled and is mapped to failure (`None` after the
source's `except` handler). -/
def dfOfRows : Json → Option (List JRow)
  | .arr xs => optMapM rowOf xs
  | _ => Option.none

/-- Embedding of the response-shape handling in
`UnifiedDataLoaderAgent._fetch_from_api` for a 2xx JSON body: a dict with a
`data` key uses that payload, otherwise a dict with a `results` key uses
that payload, otherwise ANY other dict becomes a single-row table
(`pd.DataFrame([data])`); a bare array becomes a table; any non-dict,
non-list body is rejected (`return None`). -/
def fetchParse (data : Json) : Option (List JRow) :=
  match data with
  | .obj fields =>
    match List.lookup "data" fields with
    | some v => dfOfRows v
    | Option.none =>
      match List.lookup "results" fields with
      | some v => dfOfRows v
      | Option.none => some [fields]
  | .arr xs => dfOfRows (.arr xs)
  | _ => Option.none

/-- The `business_rules` dict of `DynamicLabelGenerator`: rule-set name to
ordered rule list. -/
abbrev RuleSets := List (String × List Rule)

/-- Replace the value stored under `key` (dict update; keys are unique in a
Python dict, so only the first occurrence is relevant). -/
def updateKey (sets : RuleSets) (key : String) (newRules : List Rule) : RuleSets :=
  match sets with
  | [] => []
  | (k, v) :: rest =>
    if k == key then (k, newRules) :: rest
    else (k, v) :: updateKey rest key newRules

/-- Embedding of `AnalyzerAgent.add_business_rule`: build the rule dict and
append it to the requested rule set (creating the set if absent).  The
source performs NO validation — there is no error path, whatever
`condition` and `label` are. -/
def addBusinessRule (sets : RuleSets) (ruleType : String) (condition label : Value)
    (priority : Int) (category : Value) : RuleSets :=
  let r : Rule := { condition := condition, label := label,
                    priority := priority, category := category }
  match List.lookup ruleType sets with
  | some rules => updateKey sets ruleType (rules ++ [r])
  | Option.none => sets ++ [(ruleType, [r])]

/-- The default `business_rules` dict built by
`DynamicLabelGenerator._load_business_rules`. -/
def defaultBusinessRules : RuleSets :=
  [("pv_rules", defaultPvRules), ("delta_rules", defaultDeltaRules)]

/-- The constant dict built by `DynamicLabelGenerator._load_domain_knowledge`. -/
def defaultDomainKnowledge : List (String × List String) :=
  [ ("trade_lifecycle",
      ["New trade – no prior valuation", "Trade dropped from new model",
       "Trade amended with new terms", "Trade matured or expired"]),
    ("curve_model",
      ["Legacy LIBOR curve with outdated model – PV likely shifted",
       "SOFR transition impact – curve basis changed",
       "Model version update – methodology changed",
       "Curve interpolation changed – end points affected"]),
    ("funding_csa",
      ["CSA changed post-clearing – funding basis moved",
       "Collateral threshold changed – funding cost shifted",
       "New clearing house – margin requirements different",
       "Bilateral to cleared transition – funding curve changed"]),
    ("volatility",
      ["Vol sensitivity likely – delta impact due to model curve shift",
       "Vol surface updated – smile/skew changed",
       "Market stress – vol regime shifted",
       "Option-specific model change – vol dynamics affected"]),
    ("tolerance",
      ["Within tolerance", "Minor deviation – no action required",
       "Acceptable range – monitor for trends"]),
    ("data_quality",
      ["Missing data – incomplete valuation", "Data corruption – invalid inputs",
       "Timing mismatch – stale data", "System error – calculation failed"]),
    ("market_events",
      ["Market volatility – broad repricing", "Credit event – counterparty risk changed",
       "Regulatory change – capital requirements updated",
       "Liquidity crisis – funding costs spiked"]) ]

/-- The mutable taxonomy state a `DynamicLabelGenerator` instance carries. -/
structure DLGState where
  business_rules : RuleSets
  domain_knowledge : List (String × List String)
  historical_patterns : List (String × List String)
  label_frequency : List (String × Int)
  last_update : Option String

/-- Embedding of `DynamicLabelGenerator.__init__`: every fresh instance (in
particular the first instance of a fresh process) starts from the hardcoded
default rules, empty pattern history and empty frequency counts.  The
constructor stores `config_path` but NEVER opens or reads the file at that
path. -/
def freshInit : DLGState :=
  { business_rules := defaultBusinessRules,
    domain_knowledge := defaultDomainKnowledge,
    historical_patterns := [],
    label_frequency := [],
    last_update := Option.none }

/-- JSON encoding of a scalar, as `json.dump` writes it. -/
def encodeValue : Value → Json
  | .none => .null
  | .nan => .nan
  | .num q => .num q
  | .str s => .str s
  | .bool b => .bool b

/-- JSON encoding of one rule dict. -/
def encodeRule (r : Rule) : Json :=
  .obj [("condition", encodeValue r.condition), ("label", encodeValue r.label),
        ("priority", .num (r.priority : ℚ)), ("category", encodeValue r.category)]

/-- JSON encoding of the `business_rules` dict. -/
def encodeRuleSets (sets : RuleSets) : Json :=
  .obj (sets.map (fun p => (p.1, .arr (p.2.map encodeRule))))

/-- JSON encoding of the `label_frequency` dict. -/
def encodeFreq (freq : List (String × Int)) : Json :=
  .obj (freq.map (fun p => (p.1, .num (p.2 : ℚ))))

/-- JSON encoding of a category-to-string-list dict (`historical_patterns`
and `domain_knowledge`). -/
def encodeStrListDict (d : List (String × List String)) : Json :=
  .obj (d.map (fun p => (p.1, .arr (p.2.map Json.str))))

/-- JSON encoding of `last_update` (`isoformat()` string or `null`). -/
def encodeLastUpdate : Option String → Json
  | some s => .str s
  | Option.none => .null

/-- Embedding of `DynamicLabelGenerator._save_patterns`: the JSON document
written (wholesale, overwriting any previous version) to the state file. -/
def savePatterns (s : DLGState) : Json :=
  .obj [("historical_patterns", encodeStrListDict s.historical_patterns),
        ("label_frequency", encodeFreq s.label_frequency),
        ("last_update", encodeLastUpdate s.last_update),
        ("business_rules", encodeRuleSets s.business_rules),
        ("domain_knowledge", encodeStrListDict s.domain_knowledge)]

/-- What loading the persisted file in a fresh process yields: the
repository has NO code path that reads the state file back — a fresh
process constructs `DynamicLabelGenerator()` from scratch, so the file
content is ignored entirely. -/
def loadInFreshProcess (_file : Json) : DLGState :=
  freshInit

/-- Partial inverse of `encodeValue`. -/
def decodeValue : Json → Option Value
  | .null => some .none
  | .nan => some .nan
  | .num q => some (.num q)
  | .str s => some (.str s)
  | .bool b => some (.bool b)
  | _ => Option.none

/-- Partial inverse of integer encoding. -/
def decodeInt : Json → Option Int
  | .num q => if q.den = 1 then some q.num else Option.none
  | _ => Option.none

/-- Partial inverse of `encodeRule`. -/
def decodeRule : Json → Option Rule
  | .obj fs => do
    let c ← (List.lookup "condition" fs).bind decodeValue
    let l ← (List.lookup "label" fs).bind decodeValue
    let p ← (List.lookup "priority" fs).bind decodeInt
    let cat ← (List.lookup "category" fs).bind decodeValue
    pure { condition := c, label := l, priority := p, category := cat }
  | _ => Option.none

/-- Partial inverse of rule-list encoding. -/
def decodeRuleList : Json → Option (List Rule)
  | .arr xs => optMapM decodeRule xs
  | _ => Option.none

/-- Partial inverse of `encodeRuleSets`. -/
def decodeRuleSets : Json → Option RuleSets
  | .obj fs => optMapM (fun p => (decodeRuleList p.2).map (fun rs => (p.1, rs))) fs
  | _ => Option.none

/-- Partial inverse of `encodeFreq`. -/
def decodeFreq : Json → Option (List (String × Int))
  | .obj fs => optMapM (fun p => (decodeInt p.2).map (fun n => (p.1, n))) fs
  | _ => Option.none

/-- Decoder extracting the rule sets and frequency counts that the state
file contains (what a load routine would reconstruct, had one existed). -/
def decodeSavedState (j : Json) : Option (RuleSets × List (String × Int)) :=
  match j with
  | .obj fs => do
    let br ← (List.lookup "business_rules" fs).bind decodeRuleSets
    let lf ← (List.lookup "label_frequency" fs).bind decodeFreq
    pure (br, lf)
  | _ => Option.none

/-! ### Helper lemmas about the stable descending sort and the rule loop -/

theorem mem_insertDesc {r b : Rule} : ∀ {l : List Rule}, b ∈ insertDesc r l ↔ b = r ∨ b ∈ l := by
  intro l
  induction l with
  | nil => simp [insertDesc]
  | cons x xs ih =>
    by_cases h : x.priority ≤ r.priority
    · simp only [insertDesc, if_pos h, List.mem_cons]
    · simp only [insertDesc, if_neg h, List.mem_cons, ih]
      tauto

theorem perm_insertDesc (r : Rule) : ∀ l : List Rule, List.Perm (insertDesc r l) (r :: l) := by
  intro l
  induction l with
  | nil => exact List.Perm.refl _
  | cons x xs ih =>
    by_cases h : x.priority ≤ r.priority
    · simp only [insertDesc, if_pos h]
      exact List.Perm.refl _
    · have h1 : insertDesc r (x :: xs) = x :: insertDesc r xs := by simp [insertDesc, h]
      rw [h1]
      exact (ih.cons x).trans (List.Perm.swap r x xs)

theorem pairwise_insertDesc {r : Rule} :
    ∀ {l : List Rule}, l.Pairwise (fun a b => b.priority ≤ a.priority) →
      (insertDesc r l).Pairwise (fun a b => b.priority ≤ a.priority) := by
  intro l
  induction l with
  | nil => intro _; simp [insertDesc]
  | cons x xs ih =>
    intro h
    rw [List.pairwise_cons] at h
    obtain ⟨hx, hxs⟩ := h
    by_cases hle : x.priority ≤ r.priority
    · simp only [insertDesc, if_pos hle]
      refine List.Pairwise.cons ?_ (List.Pairwise.cons hx hxs)
      intro b hb
      rcases List.mem_cons.mp hb with rfl | hbxs
      · exact hle
      · exact le_trans (hx b hbxs) hle
    · simp only [insertDesc, if_neg hle]
      refine List.Pairwise.cons ?_ (ih hxs)
      intro b hb
      rcases mem_insertDesc.mp hb with rfl | hbxs
      · exact le_of_lt (not_le.mp hle)
      · exact hx b hbxs

theorem filter_insertDesc (p : Int) (r : Rule) : ∀ l : List Rule,
    (insertDesc r l).filter (fun x => x.priority == p)
      = if r.priority == p then r :: l.filter (fun x => x.priority == p)
        else l.filter (fun x => x.priority == p) := by
  intro l
  induction l with
  | nil =>
    cases hrp : (r.priority == p) <;> simp [insertDesc, List.filter_cons, hrp]
  | cons x xs ih =>
    by_cases hle : x.priority ≤ r.priority
    · simp [insertDesc, hle, List.filter_cons]
    · by_cases hrp : (r.priority == p) = true
      · have hxp : (x.priority == p) = false := by
          have h1 : r.priority < x.priority := not_le.mp hle
          rw [beq_iff_eq] at hrp
          rw [beq_eq_false_iff_ne]
          omega
        simp [insertDesc, hle, List.filter_cons, hxp, ih, hrp]
      · simp [insertDesc, hle, List.filter_cons, ih, hrp]

theorem pairwise_pySorted (rules : List Rule) :
    (pySortedByPriorityDesc rules).Pairwise (fun a b => b.priority ≤ a.priority) := by
  induction rules with
  | nil => simp [pySortedByPriorityDesc]
  | cons r rs ih => exact pairwise_insertDesc ih

theorem perm_pySorted (rules : List Rule) : List.Perm (pySortedByPriorityDesc rules) rules := by
  induction rules with
  | nil => exact List.Perm.refl _
  | cons r rs ih =>
    exact (perm_insertDesc r (pySortedByPriorityDesc rs)).trans (ih.cons r)

theorem filter_pySorted (p : Int) (rules : List Rule) :
    (pySortedByPriorityDesc rules).filter (fun x => x.priority == p)
      = rules.filter (fun x => x.priority == p) := by
  induction rules with
  | nil => rfl
  | cons r rs ih =>
    by_cases hrp : (r.priority == p) = true
    · simp [pySortedByPriorityDesc, filter_insertDesc, hrp, List.filter_cons, ih]
    · simp [pySortedByPriorityDesc, filter_insertDesc, hrp, List.filter_cons, ih]

theorem runRules_eq_find (evalCond : Row → Value → Bool) (row : Row) : ∀ l : List Rule,
    runRules evalCond row l
      = ((List.find? (fun r => evalCond row r.condition) l).map Rule.label).getD
          (.str "Within tolerance") := by
  intro l
  induction l with
  | nil => rfl
  | cons x xs ih =>
    cases h : evalCond row x.condition with
    | true => simp [runRules, h, List.find?_cons, ih]
    | false => simp [runRules, h, List.find?_cons, ih]

theorem runRules_sorted_eq (evalCond : Row → Value → Bool) (rules : List Rule) (row : Row) :
    runRules evalCond row (pySortedByPriorityDesc rules)
      = ((firstMatch evalCond rules row).map Rule.label).getD (.str "Within tolerance") :=
  runRules_eq_find evalCond row (pySortedByPriorityDesc rules)

theorem runRules_WT_iff (evalCond : Row → Value → Bool) (rules : List Rule) (row : Row) :
    runRules evalCond row (pySortedByPriorityDesc rules) = .str "Within tolerance" ↔
      (∀ r ∈ rules, evalCond row r.condition = false) ∨
      (∃ r, firstMatch evalCond rules row = some r ∧ r.label = .str "Within tolerance") := by
  rw [runRules_sorted_eq]
  cases h : firstMatch evalCond rules row with
  | none =>
    constructor
    · intro _
      left
      intro r hr
      have hr' : r ∈ pySortedByPriorityDesc rules := ((perm_pySorted rules).mem_iff).mpr hr
      have hn := List.find?_eq_none.mp h r hr'
      simpa using hn
    · intro _
      rfl
  | some r =>
    constructor
    · intro hlab
      right
      exact ⟨r, rfl, hlab⟩
    · rintro (hall | ⟨r', hr', hlab⟩)
      · exfalso
        have hmem := List.mem_of_find?_eq_some h
        have hp := List.find?_some h
        have hmem' : r ∈ rules := ((perm_pySorted rules).mem_iff).mp hmem
        rw [hall r hmem'] at hp
        exact Bool.false_ne_true hp
      · cases Option.some.inj hr'
        exact hlab

theorem runRules_all_false (evalCond : Row → Value → Bool) (rules : List Rule) (row : Row)
    (h : ∀ r ∈ rules, evalCond row r.condition = false) :
    runRules evalCond row (pySortedByPriorityDesc rules) = .str "Within tolerance" :=
  (runRules_WT_iff evalCond rules row).mpr (Or.inl h)

/-! ### Claim C1 -/

/-- A rule set with a priority-0 rule carrying a non-fallback label; such a
set is reachable via `AnalyzerAgent.add_business_rule(..., priority=0)`. -/
def c1Rules : List Rule :=
  [{ condition := .str "PV_Mismatch == True", label := .str "Custom issue",
     priority := 0, category := .str "custom" }]

/-- A row on which the priority-0 rule of `c1Rules` matches. -/
def c1Row : Row := [("PV_Mismatch", .bool true)]

/-- C1, counterexample: on the rule set `c1Rules` (one matching priority-0
rule labelled "Custom issue") the claimed equivalence "the fallback label
'Within tolerance' is assigned iff no rule with priority > 0 matched" is
false: no rule with positive priority matches, yet the diagnosis is
"Custom issue", not the fallback label. -/
theorem c1_fallback_iff_counterexample :
    ¬ ((analyzePV (fun _ _ => false) c1Rules c1Row = .str "Within tolerance") ↔
       (∀ r ∈ c1Rules, 0 < r.priority →
          evalPVCond (fun _ _ => false) c1Row r.condition = false)) := by
  decide

/-- C1 (amended): for every trade row and every rule set, diagnosis
(`PVAnalysisAgent.analyze` / `DeltaAnalysisAgent.analyze`) evaluates the
rules sorted by descending priority (ties broken by original insertion
order: the sorted list is a permutation that is pairwise sorted and
preserves the relative order of equal-priority rules), returns the label of
the first rule whose predicate is true, and returns the hardcoded fallback
label "Within tolerance" if and only if either no rule at all matched or
the first matching rule itself carries that label; exactly one label is
produced per rule set per trade (the evaluator is a total function).  The
original claim's "iff no rule with priority > 0 matched" is refuted by
`c1_fallback_iff_counterexample`. -/
theorem c1_diagnosis_order_and_fallback (safeEval : Row → String → Bool)
    (rules : List Rule) (row : Row) :
    (pySortedByPriorityDesc rules).Pairwise (fun a b => b.priority ≤ a.priority)
    ∧ List.Perm (pySortedByPriorityDesc rules) rules
    ∧ (∀ p : Int, (pySortedByPriorityDesc rules).filter (fun r => r.priority == p)
        = rules.filter (fun r => r.priority == p))
    ∧ analyzePV safeEval rules row
        = ((firstMatch (evalPVCond safeEval) rules row).map Rule.label).getD
            (.str "Within tolerance")
    ∧ analyzeDelta safeEval rules row
        = ((firstMatch (evalDeltaCond safeEval) rules row).map Rule.label).getD
            (.str "Within tolerance")
    ∧ (analyzePV safeEval rules row = .str "Within tolerance" ↔
        (∀ r ∈ rules, evalPVCond safeEval row r.condition = false)
        ∨ (∃ r, firstMatch (evalPVCond safeEval) rules row = some r
             ∧ r.label = .str "Within tolerance"))
    ∧ (analyzeDelta safeEval rules row = .str "Within tolerance" ↔
        (∀ r ∈ rules, evalDeltaCond safeEval row r.condition = false)
        ∨ (∃ r, firstMatch (evalDeltaCond safeEval) rules row = some r
             ∧ r.label = .str "Within tolerance")) :=
  ⟨pairwise_pySorted rules, perm_pySorted rules,
   fun p => filter_pySorted p rules,
   runRules_sorted_eq (evalPVCond safeEval) rules row,
   runRules_sorted_eq (evalDeltaCond safeEval) rules row,
   runRules_WT_iff (evalPVCond safeEval) rules row,
   runRules_WT_iff (evalDeltaCond safeEval) rules row⟩

/-! ### Claim C10 -/

/-- C10: the diagnosis functions are total and do not rely on any fallback
rule being present in the rule set: for every rule set (in particular one
without a zero-priority fallback rule) and every row, if no rule's
predicate evaluates true then `analyze` returns the hardcoded string
"Within tolerance". -/
theorem c10_diagnosis_total (safeEval : Row → String → Bool) (rules : List Rule) (row : Row) :
    ((∀ r ∈ rules, evalPVCond safeEval row r.condition = false) →
        analyzePV safeEval rules row = .str "Within tolerance")
    ∧ ((∀ r ∈ rules, evalDeltaCond safeEval row r.condition = false) →
        analyzeDelta safeEval rules row = .str "Within tolerance") :=
  ⟨fun h => runRules_all_false (evalPVCond safeEval) rules row h,
   fun h => runRules_all_false (evalDeltaCond safeEval) rules row h⟩

/-- A rule set without any zero-priority fallback rule, used to witness C10. -/
def c10Rules : List Rule :=
  [{ condition := .str "PV_Mismatch == True", label := .str "Investigate",
     priority := 2, category := .str "custom" },
   { condition := .str "Delta_Mismatch == True", label := .str "Investigate",
     priority := 2, category := .str "custom" }]

/-- Witness for C10: on the fallback-free rule set `c10Rules` and a row
where no rule matches, both analyzers return "Within tolerance". -/
theorem c10_diagnosis_total_witness :
    ((∀ r ∈ c10Rules, evalPVCond (fun _ _ => false) [] r.condition = false)
      ∧ analyzePV (fun _ _ => false) c10Rules [] = .str "Within tolerance")
    ∧ ((∀ r ∈ c10Rules, evalDeltaCond (fun _ _ => false) [] r.condition = false)
      ∧ analyzeDelta (fun _ _ => false) c10Rules [] = .str "Within tolerance") :=
  ⟨⟨by decide, (c10_diagnosis_total (fun _ _ => false) c10Rules []).1 (by decide)⟩,
   ⟨by decide, (c10_diagnosis_total (fun _ _ => false) c10Rules []).2 (by decide)⟩⟩

/-! ### Claims C2 and C3 -/

/-- C2: `ReconAgent.add_diff_flags` computes `PV_Diff = PV_new − PV_old` and
`Delta_Diff = Delta_new − Delta_old`, each null exactly when either operand
is null (absence propagated, never coerced to zero), and sets `PV_Mismatch`
(resp. `Delta_Mismatch`) true exactly when the absolute difference is
STRICTLY greater than the tolerance; in particular old PV 104500, new PV
105200, pvTolerance 1000 gives `PV_Diff = 700` and no mismatch, while old
PV −98000, new PV −97500, pvTolerance 400 gives `PV_Diff = 500` and a
mismatch. -/
theorem c2_diff_and_mismatch (pvTol dTol : ℚ) (t : TradeVals) :
    ((addDiffFlags pvTol dTol t).pv_diff = Option.none
        ↔ t.pv_new = Option.none ∨ t.pv_old = Option.none)
    ∧ ((addDiffFlags pvTol dTol t).delta_diff = Option.none
        ↔ t.delta_new = Option.none ∨ t.delta_old = Option.none)
    ∧ (∀ a b : ℚ, (addDiffFlags pvTol dTol { t with pv_old := some a, pv_new := some b }).pv_diff
        = some (b - a))
    ∧ (∀ a b : ℚ,
        (addDiffFlags pvTol dTol { t with delta_old := some a, delta_new := some b }).delta_diff
          = some (b - a))
    ∧ ((addDiffFlags pvTol dTol t).pv_mismatch = true
        ↔ ∃ d, (addDiffFlags pvTol dTol t).pv_diff = some d ∧ pvTol < |d|)
    ∧ ((addDiffFlags pvTol dTol t).delta_mismatch = true
        ↔ ∃ d, (addDiffFlags pvTol dTol t).delta_diff = some d ∧ dTol < |d|)
    ∧ (addDiffFlags 1000 0 ⟨some 104500, some 105200, Option.none, Option.none⟩).pv_diff
        = some 700
    ∧ (addDiffFlags 1000 0 ⟨some 104500, some 105200, Option.none, Option.none⟩).pv_mismatch
        = false
    ∧ (addDiffFlags 400 0 ⟨some (-98000), some (-97500), Option.none, Option.none⟩).pv_diff
        = some 500
    ∧ (addDiffFlags 400 0 ⟨some (-98000), some (-97500), Option.none, Option.none⟩).pv_mismatch
        = true := by
  refine ⟨?_, ?_, ?_, ?_, ?_, ?_, ?_, ?_, ?_, ?_⟩
  · cases h1 : t.pv_new <;> cases h2 : t.pv_old <;> simp [addDiffFlags, subO, h1, h2]
  · cases h1 : t.delta_new <;> cases h2 : t.delta_old <;> simp [addDiffFlags, subO, h1, h2]
  · intro a b
    simp [addDiffFlags, subO]
  · intro a b
    simp [addDiffFlags, subO]
  · cases h1 : t.pv_new <;> cases h2 : t.pv_old <;>
      simp [addDiffFlags, subO, absO, gtO, h1, h2]
  · cases h1 : t.delta_new <;> cases h2 : t.delta_old <;>
      simp [addDiffFlags, subO, absO, gtO, h1, h2]
  · simp only [addDiffFlags, subO, Option.some.injEq]
    norm_num
  · have h7 : |(105200 : ℚ) - 104500| = 700 := by
      rw [show (105200 : ℚ) - 104500 = 700 by norm_num]
      exact abs_of_nonneg (by norm_num)
    simp only [addDiffFlags, subO, absO, gtO, h7]
    exact decide_eq_false (by norm_num)
  · simp only [addDiffFlags, subO, Option.some.injEq]
    norm_num
  · have h5 : |(-97500 : ℚ) - -98000| = 500 := by
      rw [show (-97500 : ℚ) - -98000 = 500 by norm_num]
      exact abs_of_nonneg (by norm_num)
    simp only [addDiffFlags, subO, absO, gtO, h5]
    exact decide_eq_true (by norm_num)

/-- C3: in every row produced by `ReconAgent.add_diff_flags`, for all
tolerances ≥ 0, `Any_Mismatch` is the null-safe disjunction of
`PV_Mismatch` and `Delta_Mismatch`: the flags entering the disjunction are
booleans (a null difference has already been collapsed to a false mismatch
flag by the pandas comparison, and `fillna(False)` keeps booleans
unchanged), and `Any_Mismatch` equals their `OR`. -/
theorem c3_any_mismatch (pvTol dTol : ℚ) (t : TradeVals)
    (_hpv : 0 ≤ pvTol) (_hd : 0 ≤ dTol) :
    (addDiffFlags pvTol dTol t).any_mismatch
      = ((addDiffFlags pvTol dTol t).pv_mismatch || (addDiffFlags pvTol dTol t).delta_mismatch)
    ∧ ((addDiffFlags pvTol dTol t).pv_diff = Option.none →
        (addDiffFlags pvTol dTol t).pv_mismatch = false)
    ∧ ((addDiffFlags pvTol dTol t).delta_diff = Option.none →
        (addDiffFlags pvTol dTol t).delta_mismatch = false) := by
  refine ⟨rfl, ?_, ?_⟩
  · intro h
    simp only [addDiffFlags] at h ⊢
    rw [h]
    rfl
  · intro h
    simp only [addDiffFlags] at h ⊢
    rw [h]
    rfl

/-- Witness for C3 at a concrete row (both tolerances 0, an all-missing
pricing row). -/
theorem c3_any_mismatch_witness :
    (0 : ℚ) ≤ 0
    ∧ ((addDiffFlags 0 0 ⟨Option.none, Option.none, Option.none, Option.none⟩).any_mismatch
        = ((addDiffFlags 0 0 ⟨Option.none, Option.none, Option.none, Option.none⟩).pv_mismatch
           || (addDiffFlags 0 0 ⟨Option.none, Option.none, Option.none, Option.none⟩).delta_mismatch)
      ∧ ((addDiffFlags 0 0 ⟨Option.none, Option.none, Option.none, Option.none⟩).pv_diff
            = Option.none →
          (addDiffFlags 0 0 ⟨Option.none, Option.none, Option.none, Option.none⟩).pv_mismatch
            = false)
      ∧ ((addDiffFlags 0 0 ⟨Option.none, Option.none, Option.none, Option.none⟩).delta_diff
            = Option.none →
          (addDiffFlags 0 0 ⟨Option.none, Option.none, Option.none, Option.none⟩).delta_mismatch
            = false)) :=
  ⟨le_refl 0,
   c3_any_mismatch 0 0 ⟨Option.none, Option.none, Option.none, Option.none⟩ (le_refl 0) (le_refl 0)⟩

/-! ### Helper lemmas about keyed joins -/

theorem mem_keys_iff {α : Type _} {k : String} {m : List (String × α)} :
    k ∈ keys m ↔ ∃ p ∈ m, p.1 = k := by
  simp [keys, List.mem_map]

theorem matchesFor_eq_nil {α : Type _} {k : String} {m : List (String × α)}
    (h : k ∉ keys m) : matchesFor k m = [] := by
  rw [matchesFor, List.filter_eq_nil_iff]
  intro p hp hbeq
  exact h (mem_keys_iff.mpr ⟨p, hp, beq_iff_eq.mp hbeq⟩)

theorem matchesFor_length_le_one {α : Type _} {k : String} {m : List (String × α)}
    (h : (keys m).Nodup) : (matchesFor k m).length ≤ 1 := by
  induction m with
  | nil => simp [matchesFor]
  | cons a as ih =>
    simp only [keys, List.map_cons, List.nodup_cons] at h
    obtain ⟨h1, h2⟩ := h
    cases hk : (a.1 == k) with
    | false =>
      have hstep : matchesFor k (a :: as) = matchesFor k as := by
        simp [matchesFor, List.filter_cons, hk]
      rw [hstep]
      exact ih h2
    | true =>
      have hnil : matchesFor k as = [] := by
        apply matchesFor_eq_nil
        rw [← beq_iff_eq.mp hk]
        exact h1
      have hstep : matchesFor k (a :: as) = a :: matchesFor k as := by
        simp [matchesFor, List.filter_cons, hk]
      rw [hstep, hnil]
      simp

theorem matchesFor_cases {α : Type _} {k : String} {m : List (String × α)}
    (h : (keys m).Nodup) : matchesFor k m = [] ∨ ∃ b, matchesFor k m = [b] := by
  cases hm : matchesFor k m with
  | nil => exact Or.inl rfl
  | cons b bs =>
    right
    have hle := matchesFor_length_le_one (k := k) h
    rw [hm] at hle
    cases bs with
    | nil => exact ⟨b, rfl⟩
    | cons c cs =>
      simp only [List.length_cons] at hle
      omega

theorem leftChunk_length {α β : Type _} (a : String × α) {m : List (String × β)}
    (hm : (keys m).Nodup) : (leftChunk a m).length = 1 := by
  unfold leftChunk
  rcases matchesFor_cases (k := a.1) hm with h | ⟨b, h⟩ <;> rw [h] <;> rfl

theorem keys_leftChunk {α β : Type _} (a : String × α) {m : List (String × β)}
    (hm : (keys m).Nodup) : keys (leftChunk a m) = [a.1] := by
  unfold leftChunk
  rcases matchesFor_cases (k := a.1) hm with h | ⟨b, h⟩ <;> rw [h] <;> rfl

theorem leftJoin_cons {α β : Type _} (a : String × α) (l : List (String × α))
    (m : List (String × β)) :
    leftJoin (a :: l) m = leftChunk a m ++ leftJoin l m := by
  simp [leftJoin, List.flatMap_cons]

theorem leftJoin_length {α β : Type _} (m : List (String × β)) (hm : (keys m).Nodup) :
    ∀ l : List (String × α), (leftJoin l m).length = l.length := by
  intro l
  induction l with
  | nil => rfl
  | cons a as ih =>
    rw [leftJoin_cons, List.length_append, ih, leftChunk_length a hm]
    simp [Nat.add_comm]

theorem keys_leftJoin {α β : Type _} (m : List (String × β)) (hm : (keys m).Nodup) :
    ∀ l : List (String × α), keys (leftJoin l m) = keys l := by
  intro l
  induction l with
  | nil => rfl
  | cons a as ih =>
    rw [leftJoin_cons]
    calc keys (leftChunk a m ++ leftJoin as m)
        = keys (leftChunk a m) ++ keys (leftJoin as m) := by simp [keys]
      _ = [a.1] ++ keys as := by rw [keys_leftChunk a hm, ih]
      _ = keys (a :: as) := by simp [keys]

theorem outerMatched_cons {α β : Type _} (a : String × α) (old : List (String × α))
    (new : List (String × β)) :
    outerMatched (a :: old) new = outerChunk a new ++ outerMatched old new := by
  simp [outerMatched, List.flatMap_cons]

theorem mem_keys_outerChunk {α β : Type _} {k : String} (a : String × α)
    {new : List (String × β)} : k ∈ keys (outerChunk a new) ↔ k = a.1 := by
  unfold outerChunk
  cases h : matchesFor a.1 new with
  | nil => simp [keys, eq_comm]
  | cons b bs => simp [keys, List.mem_map, eq_comm]

theorem keys_outerChunk {α β : Type _} (a : String × α) {new : List (String × β)}
    (hnew : (keys new).Nodup) : keys (outerChunk a new) = [a.1] := by
  unfold outerChunk
  rcases matchesFor_cases (k := a.1) hnew with h | ⟨b, h⟩ <;> rw [h] <;> rfl

theorem mem_keys_outerMatched {α β : Type _} {k : String} {new : List (String × β)} :
    ∀ old : List (String × α), k ∈ keys (outerMatched old new) ↔ k ∈ keys old := by
  intro old
  induction old with
  | nil => simp [outerMatched, keys]
  | cons a as ih =>
    rw [outerMatched_cons]
    have happ : keys (outerChunk a new ++ outerMatched as new)
        = keys (outerChunk a new) ++ keys (outerMatched as new) := by
      simp [keys]
    rw [happ, List.mem_append, mem_keys_outerChunk a, ih]
    simp [keys]

theorem keys_outerMatched {α β : Type _} {new : List (String × β)}
    (hnew : (keys new).Nodup) :
    ∀ old : List (String × α), keys (outerMatched old new) = keys old := by
  intro old
  induction old with
  | nil => rfl
  | cons a as ih =>
    rw [outerMatched_cons]
    calc keys (outerChunk a new ++ outerMatched as new)
        = keys (outerChunk a new) ++ keys (outerMatched as new) := by simp [keys]
      _ = [a.1] ++ keys as := by rw [keys_outerChunk a hnew, ih]
      _ = keys (a :: as) := by simp [keys]

theorem mem_keys_outerRightOnly {α β : Type _} {k : String} {old : List (String × α)}
    {new : List (String × β)} :
    k ∈ keys (outerRightOnly old new) ↔ k ∈ keys new ∧ k ∉ keys old := by
  constructor
  · intro h
    rw [mem_keys_iff] at h
    obtain ⟨p, hp, hpk⟩ := h
    simp only [outerRightOnly, List.mem_map, List.mem_filter] at hp
    obtain ⟨b, ⟨hbnew, hbp⟩, hbeq⟩ := hp
    have hb1 : b.1 = k := by rw [← hpk, ← hbeq]
    constructor
    · exact mem_keys_iff.mpr ⟨b, hbnew, hb1⟩
    · intro hk
      rw [mem_keys_iff] at hk
      obtain ⟨a, ha, hak⟩ := hk
      have : old.any (fun a => a.1 == b.1) = true :=
        List.any_eq_true.mpr ⟨a, ha, beq_iff_eq.mpr (by rw [hak, hb1])⟩
      rw [this] at hbp
      simp at hbp
  · rintro ⟨hknew, hkold⟩
    rw [mem_keys_iff] at hknew
    obtain ⟨b, hb, hbk⟩ := hknew
    rw [mem_keys_iff]
    refine ⟨(b.1, (Option.none, some b.2)), ?_, hbk⟩
    simp only [outerRightOnly, List.mem_map, List.mem_filter]
    refine ⟨b, ⟨hb, ?_⟩, rfl⟩
    have : old.any (fun a => a.1 == b.1) = false := by
      rw [← Bool.not_eq_true, List.any_eq_true]
      rintro ⟨a, ha, hab⟩
      exact hkold (mem_keys_iff.mpr ⟨a, ha, by rw [beq_iff_eq.mp hab, hbk]⟩)
    rw [this]
    rfl

theorem keys_outerRightOnly_nodup {α β : Type _} {old : List (String × α)}
    {new : List (String × β)} (hnew : (keys new).Nodup) :
    (keys (outerRightOnly old new)).Nodup := by
  have h : keys (outerRightOnly old new)
      = (new.filter (fun b => !(old.any (fun a => a.1 == b.1)))).map Prod.fst := by
    simp [outerRightOnly, keys, List.map_map]
  rw [h]
  exact hnew.sublist ((List.filter_sublist new).map Prod.fst)

theorem keys_outerJoin_mem {α β : Type _} (old : List (String × α))
    (new : List (String × β)) (k : String) :
    k ∈ keys (outerJoin old new) ↔ k ∈ keys old ∨ k ∈ keys new := by
  have happ : keys (outerJoin old new)
      = keys (outerMatched old new) ++ keys (outerRightOnly old new) := by
    simp [outerJoin, keys]
  rw [happ, List.mem_append, mem_keys_outerMatched old, mem_keys_outerRightOnly]
  tauto

theorem keys_outerJoin_nodup {α β : Type _} {old : List (String × α)}
    {new : List (String × β)} (hold : (keys old).Nodup) (hnew : (keys new).Nodup) :
    (keys (outerJoin old new)).Nodup := by
  have happ : keys (outerJoin old new)
      = keys (outerMatched old new) ++ keys (outerRightOnly old new) := by
    simp [outerJoin, keys]
  rw [happ, keys_outerMatched hnew old]
  refine List.Nodup.append hold (keys_outerRightOnly_nodup hnew) ?_
  intro x hx hx2
  exact (mem_keys_outerRightOnly.mp hx2).2 hx

/-! ### Claim C4 -/

/-- C4: the merge of `UnifiedDataLoaderAgent._merge_dataframes` (outer-join
of old and new pricing on TradeID, then left-joins of metadata and funding
reference, each table keyed by unique trade identifiers per the data model)
produces exactly as many rows as the pricing outer join regardless of
metadata/funding completeness, its key set is exactly the union of the
pricing key sets (so pricing trades are never dropped and metadata/funding
rows with unknown identifiers are dropped), and no trade identifier is
duplicated. -/
theorem c4_merge_preserves_pricing_universe {α β γ δ : Type _}
    (old : List (String × α)) (new : List (String × β))
    (meta : List (String × γ)) (funding : List (String × δ))
    (hm : (keys meta).Nodup) (hf : (keys funding).Nodup) :
    (mergeDataframes old new meta funding).length = (outerJoin old new).length
    ∧ (∀ k, k ∈ keys (mergeDataframes old new meta funding) ↔ k ∈ keys old ∨ k ∈ keys new)
    ∧ ((keys old).Nodup → (keys new).Nodup →
        (keys (mergeDataframes old new meta funding)).Nodup) := by
  have hk : keys (mergeDataframes old new meta funding) = keys (outerJoin old new) := by
    unfold mergeDataframes
    rw [keys_leftJoin funding hf, keys_leftJoin meta hm]
  refine ⟨?_, ?_, ?_⟩
  · unfold mergeDataframes
    rw [leftJoin_length funding hf, leftJoin_length meta hm]
  · intro k
    rw [hk]
    exact keys_outerJoin_mem old new k
  · intro h1 h2
    rw [hk]
    exact keys_outerJoin_nodup h1 h2

/-- Concrete tables witnessing C4: the metadata has a trade (`TX`) unknown
to pricing and lacks a row for `T2`. -/
def c4Old : List (String × Int) := [("T1", 100)]

/-- New pricing table for the C4 witness. -/
def c4New : List (String × Int) := [("T1", 101), ("T2", 50)]

/-- Metadata table for the C4 witness. -/
def c4Meta : List (String × Int) := [("T1", 7), ("TX", 9)]

/-- Funding table for the C4 witness (empty: completeness is irrelevant). -/
def c4Funding : List (String × Int) := []

/-- Witness for C4 at the concrete tables above. -/
theorem c4_merge_preserves_pricing_universe_witness :
    ((keys c4Meta).Nodup ∧ (keys c4Funding).Nodup)
    ∧ ((mergeDataframes c4Old c4New c4Meta c4Funding).length = (outerJoin c4Old c4New).length
      ∧ (∀ k, k ∈ keys (mergeDataframes c4Old c4New c4Meta c4Funding)
            ↔ k ∈ keys c4Old ∨ k ∈ keys c4New)
      ∧ ((keys c4Old).Nodup → (keys c4New).Nodup →
          (keys (mergeDataframes c4Old c4New c4Meta c4Funding)).Nodup)) :=
  ⟨⟨by decide, by decide⟩,
   c4_merge_preserves_pricing_universe c4Old c4New c4Meta c4Funding (by decide) (by decide)⟩

/-! ### Claim C5 -/

theorem lookup_append_of_mem_keys {α : Type _} {k : String} :
    ∀ {l₁ : List (String × α)} (l₂ : List (String × α)), k ∈ keys l₁ →
      List.lookup k (l₁ ++ l₂) = List.lookup k l₁ := by
  intro l₁ l₂ h
  induction l₁ with
  | nil => simp [keys] at h
  | cons a as ih =>
    obtain ⟨k1, v1⟩ := a
    cases hk : (k == k1) with
    | true => simp [List.lookup, hk]
    | false =>
      simp only [List.cons_append, List.lookup, hk]
      apply ih
      simp only [keys, List.map_cons, List.mem_cons] at h
      rcases h with h | h
      · exact absurd (beq_iff_eq.mpr h) (by simp [hk])
      · exact h

/-- C5: `UnifiedDataLoaderAgent._merge_hybrid_data` keeps the API table as
primary and appends only the file rows whose identifier is absent from the
API table: the output's identifiers are exactly the union of both key
sets, the output has no duplicate identifiers, every identifier known to
the API resolves to its API row, and on API trades {A,B} and file trades
{B,C} the output is exactly A, B, C with B's fields from the API. -/
theorem c5_hybrid_merge_dedup {α : Type _} (api file : List (String × α))
    (ha : (keys api).Nodup) (hf : (keys file).Nodup) :
    (keys (mergeHybridData api file)).Nodup
    ∧ (∀ k, k ∈ keys (mergeHybridData api file) ↔ k ∈ keys api ∨ k ∈ keys file)
    ∧ (∀ k, k ∈ keys api →
        List.lookup k (mergeHybridData api file) = List.lookup k api)
    ∧ mergeHybridData [("A", (1 : Int)), ("B", 2)] [("B", 20), ("C", 3)]
        = [("A", 1), ("B", 2), ("C", 3)] := by
  have happ : keys (mergeHybridData api file)
      = keys api ++ (file.filter (fun b => !(api.any (fun a => a.1 == b.1)))).map Prod.fst := by
    simp [mergeHybridData, keys]
  have hmemfilt : ∀ k, k ∈ (file.filter (fun b => !(api.any (fun a => a.1 == b.1)))).map Prod.fst
      ↔ k ∈ keys file ∧ k ∉ keys api := by
    intro k
    constructor
    · intro h
      obtain ⟨b, hb, hbk⟩ := List.mem_map.mp h
      obtain ⟨hbfile, hbp⟩ := List.mem_filter.mp hb
      constructor
      · exact mem_keys_iff.mpr ⟨b, hbfile, hbk⟩
      · intro hk
        obtain ⟨a, ha2, hak⟩ := mem_keys_iff.mp hk
        have : api.any (fun a => a.1 == b.1) = true :=
          List.any_eq_true.mpr ⟨a, ha2, beq_iff_eq.mpr (by rw [hak, hbk])⟩
        rw [this] at hbp
        simp at hbp
    · rintro ⟨hkfile, hkapi⟩
      obtain ⟨b, hb, hbk⟩ := mem_keys_iff.mp hkfile
      refine List.mem_map.mpr ⟨b, List.mem_filter.mpr ⟨hb, ?_⟩, hbk⟩
      have : api.any (fun a => a.1 == b.1) = false := by
        rw [← Bool.not_eq_true, List.any_eq_true]
        rintro ⟨a, ha2, hab⟩
        exact hkapi (mem_keys_iff.mpr ⟨a, ha2, by rw [beq_iff_eq.mp hab, hbk]⟩)
      rw [this]
      rfl
  refine ⟨?_, ?_, ?_, ?_⟩
  · rw [happ]
    refine List.Nodup.append ha ?_ ?_
    · exact hf.sublist ((List.filter_sublist file).map Prod.fst)
    · intro x hx hx2
      exact ((hmemfilt x).mp hx2).2 hx
  · intro k
    rw [happ, List.mem_append, hmemfilt k]
    tauto
  · intro k hk
    exact lookup_append_of_mem_keys _ hk
  · decide

/-- Witness for C5: the {A,B} / {B,C} tables of the spec scenario. -/
def c5Api : List (String × Int) := [("A", 1), ("B", 2)]

/-- File table for the C5 witness. -/
def c5File : List (String × Int) := [("B", 20), ("C", 3)]

/-- Witness for C5 at the concrete scenario tables. -/
theorem c5_hybrid_merge_dedup_witness :
    ((keys c5Api).Nodup ∧ (keys c5File).Nodup)
    ∧ ((keys (mergeHybridData c5Api c5File)).Nodup
      ∧ (∀ k, k ∈ keys (mergeHybridData c5Api c5File) ↔ k ∈ keys c5Api ∨ k ∈ keys c5File)
      ∧ (∀ k, k ∈ keys c5Api →
          List.lookup k (mergeHybridData c5Api c5File) = List.lookup k c5Api)
      ∧ mergeHybridData [("A", (1 : Int)), ("B", 2)] [("B", 20), ("C", 3)]
          = [("A", 1), ("B", 2), ("C", 3)]) :=
  ⟨⟨by decide, by decide⟩, c5_hybrid_merge_dedup c5Api c5File (by decide) (by decide)⟩

/-! ### Claim C6 -/

/-- A merged row for a trade present only in the new pricing table: after
the pandas outer merge, `PV_old` (and the metadata fields, here absent from
the metadata table as well) are NaN, and `ReconAgent.add_diff_flags` has
set `PV_Mismatch = False` because `NaN > tolerance` is `False`. -/
def c6Row : Row :=
  [("TradeID", .str "T900"), ("PV_old", .nan), ("PV_new", .num 50000),
   ("Delta_old", .nan), ("Delta_new", .num 1),
   ("ProductType", .str "Swap"), ("FundingCurve", .str "EUR-LIBOR"),
   ("CSA_Type", .str "Bilateral"), ("ModelVersion", .str "v2024.1"),
   ("PV_Diff", .nan), ("Delta_Diff", .nan),
   ("PV_Mismatch", .bool false), ("Delta_Mismatch", .bool false),
   ("Any_Mismatch", .bool false)]

/-- C6 (code bug): for a trade present only in the new pricing table the
default rule "PV_old is None" → "New trade – no prior valuation" never
fires, because the merge represents the missing `PV_old` as pandas NaN and
the rule's condition tests Python identity with `None`; the recon step
meanwhile collapses the NaN difference to `PV_Mismatch = False`, so the
priority-0 rule fires and the code returns "Within tolerance" instead of
the claimed label (for every safe-eval fallback, which is never consulted
on the default rules). -/
theorem c6_new_trade_gets_within_tolerance :
    (c6Row.get "PV_old" = Value.nan ∧ (c6Row.get "PV_old").isNone = false)
    ∧ (∀ pvTol dTol dNew : ℚ,
        (addDiffFlags pvTol dTol ⟨Option.none, some 50000, Option.none, some dNew⟩).pv_mismatch
          = false)
    ∧ (∀ safeEval, analyzePV safeEval defaultPvRules c6Row = .str "Within tolerance")
    ∧ analyzePV (fun _ _ => false) defaultPvRules c6Row ≠ .str "New trade – no prior valuation" := by
  refine ⟨⟨rfl, rfl⟩, fun _ _ _ => rfl, fun safeEval => rfl, ?_⟩
  intro h
  rw [show analyzePV (fun _ _ => false) defaultPvRules c6Row = .str "Within tolerance" from rfl]
    at h
  simp at h

/-! ### Claim C7 -/

theorem optMapM_map_eq_some {α β : Type _} (f : α → β) (g : β → Option α)
    (h : ∀ a, g (f a) = some a) : ∀ l : List α, optMapM g (l.map f) = some l := by
  intro l
  induction l with
  | nil => rfl
  | cons a as ih => simp [optMapM, h, ih]

/-- An API response body that is a JSON object with neither a `data` nor a
`results` key. -/
def c7UnknownObj : Json := .obj [("foo", .num 1)]

/-- C7, counterexample: a 2xx JSON object without a `data` or `results`
envelope does NOT make the fetch fail — `_fetch_from_api` wraps it as a
single-row table (`pd.DataFrame([data])`) and returns it. -/
theorem c7_shape_counterexample :
    fetchParse c7UnknownObj = some [[("foo", Json.num 1)]]
    ∧ fetchParse c7UnknownObj ≠ Option.none := by
  refine ⟨rfl, ?_⟩
  intro h
  rw [show fetchParse c7UnknownObj = some [[("foo", Json.num 1)]] from rfl] at h
  exact Option.noConfusion h

/-- C7 (amended): a 2xx JSON body shaped as a `{"data": [...]}` envelope, a
`{"results": [...]}` envelope, or a bare array of row objects is accepted
and converted to a table; a JSON object with NEITHER key is also accepted,
as a single-row table, rather than failing; only a non-object, non-array
body (null, number, string, boolean) makes the fetch fail. -/
theorem c7_response_shapes (rows : List JRow) (fields : JRow) :
    (List.lookup "data" fields = some (.arr (rows.map Json.obj)) →
        fetchParse (.obj fields) = some rows)
    ∧ (List.lookup "data" fields = Option.none →
        List.lookup "results" fields = some (.arr (rows.map Json.obj)) →
        fetchParse (.obj fields) = some rows)
    ∧ fetchParse (.arr (rows.map Json.obj)) = some rows
    ∧ (List.lookup "data" fields = Option.none →
        List.lookup "results" fields = Option.none →
        fetchParse (.obj fields) = some [fields])
    ∧ fetchParse .null = Option.none
    ∧ (∀ q, fetchParse (.num q) = Option.none)
    ∧ (∀ s, fetchParse (.str s) = Option.none)
    ∧ (∀ b, fetchParse (.bool b) = Option.none) := by
  have hrows : dfOfRows (.arr (rows.map Json.obj)) = some rows := by
    simp [dfOfRows, optMapM_map_eq_some Json.obj rowOf (fun _ => rfl)]
  refine ⟨?_, ?_, hrows, ?_, rfl, fun _ => rfl, fun _ => rfl, fun _ => rfl⟩
  · intro h
    simp [fetchParse, h, hrows]
  · intro h1 h2
    simp [fetchParse, h1, h2, hrows]
  · intro h1 h2
    simp [fetchParse, h1, h2]

/-- Witness for C7 at concrete response bodies of each shape. -/
theorem c7_response_shapes_witness :
    fetchParse (.obj [("data", .arr [Json.obj [("TradeID", Json.str "T1")]])])
        = some [[("TradeID", Json.str "T1")]]
    ∧ fetchParse (.obj [("results", .arr [Json.obj [("TradeID", Json.str "T2")]])])
        = some [[("TradeID", Json.str "T2")]]
    ∧ fetchParse (.arr [Json.obj [("TradeID", Json.str "T3")]])
        = some [[("TradeID", Json.str "T3")]]
    ∧ fetchParse (.obj [("foo", Json.num 1)]) = some [[("foo", Json.num 1)]]
    ∧ fetchParse (.str "oops") = Option.none :=
  ⟨(c7_response_shapes [[("TradeID", Json.str "T1")]]
      [("data", .arr [Json.obj [("TradeID", Json.str "T1")]])]).1 rfl,
   (c7_response_shapes [[("TradeID", Json.str "T2")]]
      [("results", .arr [Json.obj [("TradeID", Json.str "T2")]])]).2.1 rfl rfl,
   (c7_response_shapes [[("TradeID", Json.str "T3")]] []).2.2.1,
   (c7_response_shapes [] [("foo", Json.num 1)]).2.2.2.1 rfl rfl,
   (c7_response_shapes [] []).2.2.2.2.2.2.1 "oops"⟩

/-! ### Claim C8 -/

theorem lookup_append_right {α : Type _} {k : String} :
    ∀ {l₁ : List (String × α)} (l₂ : List (String × α)), List.lookup k l₁ = Option.none →
      List.lookup k (l₁ ++ l₂) = List.lookup k l₂ := by
  intro l₁ l₂ h
  induction l₁ with
  | nil => rfl
  | cons a as ih =>
    obtain ⟨k1, v1⟩ := a
    cases hk : (k == k1) with
    | true => simp [List.lookup, hk] at h
    | false =>
      simp only [List.lookup, hk] at h
      simp only [List.cons_append, List.lookup, hk]
      exact ih h

theorem lookup_updateKey_self {k : String} {nv : List Rule} :
    ∀ {sets : RuleSets}, (List.lookup k sets).isSome = true →
      List.lookup k (updateKey sets k nv) = some nv := by
  intro sets h
  induction sets with
  | nil => simp [List.lookup] at h
  | cons a rest ih =>
    obtain ⟨k1, v1⟩ := a
    by_cases hk : (k1 == k) = true
    · have hkeq : k1 = k := beq_iff_eq.mp hk
      subst hkeq
      simp [updateKey, List.lookup]
    · have hk1 : (k1 == k) = false := by
        cases hkb : (k1 == k) with
        | true => exact absurd hkb hk
        | false => rfl
      have hk2 : (k == k1) = false := by
        cases hkb : (k == k1) with
        | true =>
          rw [beq_iff_eq.mp hkb] at hk1
          simp at hk1
        | false => rfl
      simp only [List.lookup, hk2] at h
      simp only [updateKey, hk1, Bool.false_eq_true, if_false, List.lookup, hk2]
      exact ih h

/-- C8, counterexample: adding a rule whose `condition` and `label` are
both null (Python `None`) raises no validation error — the malformed rule
is silently appended to the `pv_rules` set. -/
theorem c8_malformed_rule_accepted :
    List.lookup "pv_rules"
        (addBusinessRule defaultBusinessRules "pv_rules" Value.none Value.none 1 (.str "custom"))
      = some (defaultPvRules
          ++ [{ condition := Value.none, label := Value.none, priority := 1,
                category := .str "custom" }]) := rfl

/-- C8 (amended): `AnalyzerAgent.add_business_rule` performs no validation
at all: for every rule-set state and every rule — in particular one whose
`condition` or `label` is missing/null — the rule dict is appended to the
requested rule set and the call never fails. -/
theorem c8_add_rule_always_appends (sets : RuleSets) (ruleType : String)
    (condition label : Value) (priority : Int) (category : Value) :
    List.lookup ruleType (addBusinessRule sets ruleType condition label priority category)
      = some (((List.lookup ruleType sets).getD [])
          ++ [{ condition := condition, label := label, priority := priority,
                category := category }]) := by
  unfold addBusinessRule
  cases h : List.lookup ruleType sets with
  | none =>
    simp only [h, Option.getD_none]
    rw [lookup_append_right _ h]
    simp [List.lookup]
  | some rules =>
    simp only [h, Option.getD_some]
    exact lookup_updateKey_self (by rw [h]; rfl)

/-! ### Claim C9 -/

theorem decodeValue_encodeValue (v : Value) : decodeValue (encodeValue v) = some v := by
  cases v <;> rfl

theorem decodeRule_encodeRule (r : Rule) : decodeRule (encodeRule r) = some r := by
  simp [encodeRule, decodeRule, List.lookup, decodeValue_encodeValue, decodeInt,
    Rat.den_intCast, Rat.num_intCast]

theorem decodeRuleList_encode (rs : List Rule) :
    decodeRuleList (.arr (rs.map encodeRule)) = some rs := by
  simp [decodeRuleList, optMapM_map_eq_some encodeRule decodeRule decodeRule_encodeRule]

theorem decodeRuleSets_encode (sets : RuleSets) :
    decodeRuleSets (encodeRuleSets sets) = some sets := by
  simp only [decodeRuleSets, encodeRuleSets]
  exact optMapM_map_eq_some _ _ (fun p => by simp [decodeRuleList_encode]) sets

theorem decodeFreq_encode (freq : List (String × Int)) :
    decodeFreq (encodeFreq freq) = some freq := by
  simp only [decodeFreq, encodeFreq]
  exact optMapM_map_eq_some _ _
    (fun p => by simp [decodeInt, Rat.den_intCast, Rat.num_intCast]) freq

/-- A taxonomy state whose frequency counts differ from a fresh instance's. -/
def c9State : DLGState :=
  { freshInit with label_frequency := [("Within tolerance", 3)] }

/-- C9, counterexample: persisting `c9State` and then constructing a
`DynamicLabelGenerator` in a fresh process does NOT reproduce the persisted
frequency counts — the fresh instance starts from empty counts because no
code path ever reads the state file. -/
theorem c9_roundtrip_counterexample :
    (loadInFreshProcess (savePatterns c9State)).label_frequency
      ≠ c9State.label_frequency := by
  intro h
  rw [show (loadInFreshProcess (savePatterns c9State)).label_frequency
        = [] from rfl] at h
  rw [show c9State.label_frequency = [("Within tolerance", 3)] from rfl] at h
  exact List.noConfusion h

/-- C9 (amended): `_save_patterns` does write the complete rule sets and
frequency counts to the state file (they are decodable from the file
content), but the repository contains no load path: a fresh process
ignores the file and reinitialises with the hardcoded default rules and
empty frequency counts, so the persist-then-load round-trip reproduces the
persisted state only when that state equals the defaults. -/
theorem c9_save_faithful_never_loaded (s : DLGState) :
    decodeSavedState (savePatterns s) = some (s.business_rules, s.label_frequency)
    ∧ loadInFreshProcess (savePatterns s) = freshInit
    ∧ (loadInFreshProcess (savePatterns s)).business_rules = defaultBusinessRules
    ∧ (loadInFreshProcess (savePatterns s)).label_frequency = [] := by
  refine ⟨?_, rfl, rfl, rfl⟩
  simp [savePatterns, decodeSavedState, List.lookup, decodeRuleSets_encode, decodeFreq_encode]

end ReconAI
